import Mathlib

/-!
# Verification of the multi-class-to-bandit reduction (`obp/dataset/multiclass.py`)

A shallow embedding of `MultiClassToBanditReduction`.  Labels are modelled as
integers, probabilities as rationals (`ℚ`), numpy arrays as lists (matrices as
lists of rows, an `np.ndarray` of arbitrary rank as a shape plus a flat
C-order data buffer).  Fallible Python code (raised exceptions) is modelled
with `Except String`.  The classifier (`fit`/`predict`) is an opaque external
capability: its hard predictions on the evaluation rows enter the embedding as
a `preds : List Nat` parameter.  The feature matrix `X` never influences any
verified quantity except through those predictions, so it is not carried in
the state.
-/

set_option autoImplicit false

/-- A Python numeric value: the code distinguishes `int` from `float` with
`isinstance(…, float)`, so the embedding keeps the type tag. -/
inductive PyNum where
  | int (n : Int)
  | float (q : ℚ)
deriving DecidableEq

/-- Python `isinstance(v, float)`. -/
def PyNum.isFloat : PyNum → Bool
  | .int _ => false
  | .float _ => true

/-- The numeric value of a Python number. -/
def PyNum.val : PyNum → ℚ
  | .int n => (n : ℚ)
  | .float q => q

/-- State created by `split_train_eval`: the evaluation partition
(`self.y_ev`, `self.y_full_ev`, `self.n_rounds_ev`).  The training features
and labels only feed the opaque classifier and are omitted. -/
structure SplitInfo where
  y_ev : List Nat
  y_full_ev : List (List ℚ)
  n_rounds_ev : Nat
deriving DecidableEq

/-- The persistent state of a `MultiClassToBanditReduction` object after
`__post_init__`: normalized labels `self.y`, the reward matrix `self.y_full`,
the behaviour mixing coefficient `self.alpha_b`, and the optional split state
(`none` models the attributes `X_tr`, …, `n_rounds_ev` not existing yet). -/
structure MCState where
  y : List Nat
  y_full : List (List ℚ)
  alpha_b : ℚ
  split : Option SplitInfo
deriving DecidableEq

/-- The dictionary returned by `obtain_batch_bandit_feedback`.  `context`
(the raw evaluation features) and `position` (always `None`) carry no
verified content and are omitted. -/
structure FeedbackRec where
  n_actions : Nat
  n_rounds : Nat
  action : List Nat
  reward : List ℚ
  pscore : List ℚ
deriving DecidableEq

/-- Embedding of `scipy.stats.rankdata(y, "dense") - 1`: each entry is mapped to the
number of *distinct* values of `y` strictly below it. -/
def denseRank (y : List Int) : List Nat :=
  y.map (fun v => (y.toFinset.filter (fun u => u < v)).card)

/-- Embedding of `np.unique(y).shape[0]` — the property `n_actions` computed from the
(already normalized) label vector `self.y`. -/
def natActions (yn : List Nat) : Nat := yn.toFinset.card

/-- Resolution of a (possibly negative) integer used as a numpy index into an
axis of length `d`: negative indices wrap around, out-of-range indices raise
`IndexError` (`none`). -/
def resolveIndex (d : Nat) (v : Int) : Option Nat :=
  if 0 ≤ v ∧ v < (d : Int) then some v.toNat
  else if -(d : Int) ≤ v ∧ v < 0 then some ((d : Int) + v).toNat
  else none

/-- Row `j` of a `d`-column one-hot assignment: `zeros` with cell `j` set
to `1`. -/
def oneHotRow (d : Nat) (j : Nat) : List ℚ :=
  (List.range d).map (fun a => if a = j then 1 else 0)

/-- Embedding of `self.y_full = np.zeros((n_rounds, n_actions)); self.y_full[arange, y] = 1`.
NOTE: faithful to the source, the column index is the *original* label
vector `y` (the local variable), not the normalized `self.y`. -/
def buildYFull (d : Nat) (origY : List Int) : Except String (List (List ℚ)) :=
  origY.mapM (fun v =>
    match resolveIndex d v with
    | some j => .ok (oneHotRow d j)
    | none => .error "IndexError: index out of bounds for axis 1")

/-- Embedding of `__post_init__`: validates `alpha_b` (a Python `float` in `[0,1)`), runs
`check_X_y` (here: the label vector must be non-empty; the feature checks
concern only the omitted `X`), normalizes `self.y` with a dense rank and
builds `self.y_full`.  The `is_classifier` check concerns the opaque
classifier and is not modelled. -/
def postInit (origY : List Int) (alpha_b : PyNum) : Except String MCState :=
  if ¬(alpha_b.isFloat = true ∧ 0 ≤ alpha_b.val ∧ alpha_b.val < 1) then
    .error "alpha_b must be a float in the [0,1) interval"
  else if origY.isEmpty then
    .error "check_X_y: empty input"
  else
    let yNorm := denseRank origY
    match buildYFull (natActions yNorm) origY with
    | .error e => .error e
    | .ok yf => .ok { y := yNorm, y_full := yf, alpha_b := alpha_b.val, split := none }

/-- Embedding of `split_train_eval(eval_size, random_state)`: `sklearn.train_test_split`
shuffles the rows with the seeded RNG and takes the evaluation partition;
`evalIdx` is the list of evaluation row indices that shuffle selects.  The
method overwrites any previous split state. -/
def split_train_eval (st : MCState) (evalIdx : List Nat) : MCState :=
  { st with
    split := some
      { y_ev := evalIdx.map (fun i => st.y.getD i 0)
        y_full_ev := evalIdx.map (fun i => st.y_full.getD i [])
        n_rounds_ev := evalIdx.length } }

/-- Policy synthesis shared by `obtain_batch_bandit_feedback` and
`obtain_action_dist_by_eval_policy`:
`pi[:, :] = (1-alpha)/n_actions; pi[arange, preds] = alpha + (1-alpha)/n_actions`. -/
def synthPolicy (alpha : ℚ) (nA : Nat) (preds : List Nat) : List (List ℚ) :=
  preds.map (fun p =>
    (List.range nA).map (fun a =>
      if a = p then alpha + (1 - alpha) / (nA : ℚ) else (1 - alpha) / (nA : ℚ)))

/-- One step of a linear congruential generator, standing in for numpy's
seeded `RandomState` stream.  The exact generator is irrelevant to the
claims; what matters is that the stream is a pure function of the seed. -/
def lcgNext (s : Nat) : Nat := (1103515245 * s + 12345) % 2 ^ 31

/-- The `i`-th raw state of the seeded stream. -/
def rngState (seed : Nat) : Nat → Nat
  | 0 => lcgNext seed
  | n + 1 => lcgNext (rngState seed n)

/-- The `i`-th uniform draw in `[0,1)` of `check_random_state(seed)`. -/
def rngUnif (seed i : Nat) : ℚ := ((rngState seed i % 64 : Nat) : ℚ) / 64

/-- Categorical (inverse-CDF) draw: the smallest index whose cumulative
probability exceeds `u` — `random_.choice(arange(n), p=p, replace=False)`
for a single draw. -/
def catDraw : List ℚ → ℚ → Nat
  | [], _ => 0
  | p :: ps, u => if u < p then 0 else catDraw ps (u - p) + 1

/-- The sampling loop `for i, p in enumerate(pi_b): action[i] = random_.choice(…, p=p)`. -/
def sampleActions (pi : List (List ℚ)) (seed : Nat) : List Nat :=
  (List.range pi.length).map (fun i => catDraw (pi.getD i []) (rngUnif seed i))

/-- Embedding of `obtain_batch_bandit_feedback(random_state)`: requires a split (the
Python code hits `AttributeError` on `self.X_tr` otherwise, before mutating
anything), builds the behaviour policy from the classifier's predictions,
samples one action per evaluation row, and reveals reward and pscore. -/
def obtain_batch_bandit_feedback (st : MCState) (preds : List Nat) (seed : Nat) :
    Except String FeedbackRec :=
  match st.split with
  | none => .error "AttributeError: X_tr"
  | some sp =>
    let nA := natActions st.y
    let pi_b := synthPolicy st.alpha_b nA preds
    let action := sampleActions pi_b seed
    let reward := (List.range sp.n_rounds_ev).map
      (fun i => (sp.y_full_ev.getD i []).getD (action.getD i 0) 0)
    let pscore := (List.range sp.n_rounds_ev).map
      (fun i => (pi_b.getD i []).getD (action.getD i 0) 0)
    .ok { n_actions := nA, n_rounds := sp.n_rounds_ev,
          action := action, reward := reward, pscore := pscore }

/-- A numpy `ndarray`: a shape and a flat C-order buffer. -/
structure NpArray where
  shape : List Nat
  data : List ℚ
deriving DecidableEq

/-- Embedding of `np.expand_dims(pi, 2)` applied to a 2-D matrix: shape `(rows, cols, 1)`
with the same buffer. -/
def expand_dims2 (pi : List (List ℚ)) : NpArray :=
  { shape := [pi.length, (pi.headD []).length, 1], data := pi.flatten }

/-- Embedding of `obtain_action_dist_by_eval_policy(base_classifier_e, alpha_e)`:
validates `alpha_e` (a Python `float` in `[0,1]`), then requires a split
(`AttributeError` on `self.X_tr` otherwise) and returns the synthesized
evaluation policy with a trailing singleton axis. -/
def obtain_action_dist_by_eval_policy (st : MCState) (preds : List Nat) (alpha_e : PyNum) :
    Except String NpArray :=
  if ¬(alpha_e.isFloat = true ∧ 0 ≤ alpha_e.val ∧ alpha_e.val ≤ 1) then
    .error "alpha_e must be a float in the [0,1] interval"
  else
    match st.split with
    | none => .error "AttributeError: X_tr"
    | some _ => .ok (expand_dims2 (synthPolicy alpha_e.val (natActions st.y) preds))

/-- Embedding of `calc_ground_truth_policy_value(action_dist)`: checks `ndim == 3`, then
(state access) requires a split, then checks `shape[0] == n_rounds_ev`;
finally returns `action_dist[arange(n_rounds_ev), self.y_ev].mean()` — the
fancy-indexed selection has one row of `shape[2]` buffer entries per
evaluation row, and `.mean()` is total sum over total element count.
(Indexing assumes `y_ev` entries below `shape[1]`; numpy raises otherwise,
and the theorems below stay within bounds.) -/
def calc_ground_truth_policy_value (st : MCState) (action_dist : NpArray) :
    Except String ℚ :=
  if action_dist.shape.length ≠ 3 then
    .error "action_dist must be a 3-D np.ndarray"
  else
    match st.split with
    | none => .error "AttributeError: n_rounds_ev"
    | some sp =>
      if action_dist.shape.headD 0 ≠ sp.n_rounds_ev then
        .error "the size of axis 0 of action_dist must be the same as the number of samples in the evaluation set"
      else
        let d1 := action_dist.shape.getD 1 0
        let d2 := action_dist.shape.getD 2 0
        let sel := (List.range sp.n_rounds_ev).map (fun i =>
          (List.range d2).map (fun k =>
            action_dist.data.getD ((i * d1 + sp.y_ev.getD i 0) * d2 + k) 0))
        .ok ((sel.map List.sum).sum / ((sel.map List.length).sum : ℚ))

/-- Modelled from the spec: the classifier's plain accuracy on the
evaluation partition — "fraction of evaluation rows whose predicted label
equals the true normalized label". -/
def accuracySpec (preds yev : List Nat) : ℚ :=
  (((Finset.range yev.length).filter
      (fun i => preds.getD i 0 = yev.getD i 0)).card : ℚ) / (yev.length : ℚ)

/-- The error component of an `Except` result, if any. -/
def errOf {α : Type} : Except String α → Option String
  | .error e => some e
  | .ok _ => none

/-- A concrete dataset state used by several witnesses: normalized labels
`[0, 1]`, a correctly placed reward matrix, `alpha_b = 1/2`, and a
one-row evaluation partition whose true label is `0`. -/
def stEx : MCState :=
  { y := [0, 1], y_full := [[1, 0], [0, 1]], alpha_b := 1/2,
    split := some { y_ev := [0], y_full_ev := [[1, 0]], n_rounds_ev := 1 } }

/-- The same dataset state before any `split_train_eval` call. -/
def stNoSplit : MCState :=
  { y := [0, 1], y_full := [[1, 0], [0, 1]], alpha_b := 1/2, split := none }

/-- The feedback record produced by `obtain_batch_bandit_feedback stEx [0] 1`. -/
def fbEx : FeedbackRec :=
  { n_actions := 2, n_rounds := 1, action := [0], reward := [1], pscore := [3/4] }

/-! ## Auxiliary list lemmas -/

theorem getD_map_of_lt {α β : Type} (f : α → β) (l : List α) (i : Nat) (d : α) (d' : β)
    (h : i < l.length) : (l.map f).getD i d' = f (l.getD i d) := by
  have h' : i < (l.map f).length := by simpa using h
  rw [List.getD_eq_getElem?_getD, List.getD_eq_getElem?_getD,
    List.getElem?_eq_getElem h', List.getElem?_eq_getElem h]
  simp

theorem range_map_getD {β : Type} (f : Nat → β) (n i : Nat) (d : β) (h : i < n) :
    ((List.range n).map f).getD i d = f i := by
  rw [getD_map_of_lt f (List.range n) i 0 d (by simpa using h)]
  congr 1
  rw [List.getD_eq_getElem?_getD, List.getElem?_eq_getElem (by simpa using h)]
  simp

theorem range_map_sum {β : Type} [AddCommMonoid β] (f : Nat → β) (n : Nat) :
    ((List.range n).map f).sum = ∑ i ∈ Finset.range n, f i := by
  induction n with
  | zero => simp
  | succ m ih => rw [List.range_succ, Finset.sum_range_succ, List.map_append, List.sum_append, ih]; simp

theorem getD_mem_of_lt {α : Type} (l : List α) (i : Nat) (d : α) (h : i < l.length) :
    l.getD i d ∈ l := by
  rw [List.getD_eq_getElem?_getD, List.getElem?_eq_getElem h]
  exact List.getElem_mem h

theorem flatten_getD_uniform (m : List (List ℚ)) (w : Nat)
    (hw : ∀ r ∈ m, r.length = w) (i j : Nat) (hi : i < m.length) (hj : j < w) :
    m.flatten.getD (i * w + j) 0 = (m.getD i []).getD j 0 := by
  induction m generalizing i with
  | nil => simp at hi
  | cons r rs ih =>
    have hr : r.length = w := hw r (by simp)
    cases i with
    | zero =>
      rw [List.flatten_cons]
      rw [List.getD_append _ _ _ _ (by omega)]
      simp
    | succ i' =>
      rw [List.flatten_cons]
      have hidx : r.length ≤ (i' + 1) * w + j := by
        rw [hr]; calc w ≤ (i' + 1) * w := Nat.le_mul_of_pos_left w (by omega)
          _ ≤ (i' + 1) * w + j := Nat.le_add_right _ _
      rw [List.getD_append_right _ _ _ _ hidx]
      have : (i' + 1) * w + j - r.length = i' * w + j := by rw [hr]; ring_nf; omega
      rw [this]
      exact ih (fun s hs => hw s (by simp [hs])) i' (by simpa using hi)

/-! ## Basic facts about the synthesized policy -/

theorem synthPolicy_length (alpha : ℚ) (nA : Nat) (preds : List Nat) :
    (synthPolicy alpha nA preds).length = preds.length := by
  simp [synthPolicy]

theorem synthPolicy_row (alpha : ℚ) (nA : Nat) (preds : List Nat) (i : Nat)
    (hi : i < preds.length) :
    (synthPolicy alpha nA preds).getD i [] =
      (List.range nA).map (fun a =>
        if a = preds.getD i 0 then alpha + (1 - alpha) / (nA : ℚ) else (1 - alpha) / (nA : ℚ)) := by
  rw [synthPolicy, getD_map_of_lt _ _ _ 0 _ hi]

theorem synthPolicy_row_length (alpha : ℚ) (nA : Nat) (preds : List Nat) :
    ∀ r ∈ synthPolicy alpha nA preds, r.length = nA := by
  intro r hr
  simp only [synthPolicy, List.mem_map] at hr
  obtain ⟨p, _, rfl⟩ := hr
  simp

theorem synthPolicy_headD_length (alpha : ℚ) (nA : Nat) (preds : List Nat)
    (h : preds ≠ []) : ((synthPolicy alpha nA preds).headD []).length = nA := by
  cases preds with
  | nil => exact absurd rfl h
  | cons p ps => simp [synthPolicy]

theorem synthPolicy_entry (alpha : ℚ) (nA : Nat) (preds : List Nat) (i a : Nat)
    (hi : i < preds.length) (ha : a < nA) :
    ((synthPolicy alpha nA preds).getD i []).getD a 0 =
      if a = preds.getD i 0 then alpha + (1 - alpha) / (nA : ℚ) else (1 - alpha) / (nA : ℚ) := by
  rw [synthPolicy_row alpha nA preds i hi, range_map_getD _ _ _ _ ha]

/-! ## Claim theorems (general) -/

/-- Claim C3: For every `alpha` in its permitted interval (`[0,1]`; behaviour
policies additionally have `alpha < 1`), every row of the synthesized policy
matrix is uniform mass `(1-alpha)/n_actions` with the predicted action's cell
set to `alpha + (1-alpha)/n_actions`; consequently every row sums to 1
(exactly, in `ℚ`), every entry is non-negative, and for `alpha < 1` every
entry is strictly positive.  (Row sums require the classifier's prediction to
be a valid action index, which holds for a classifier fitted on the
normalized labels.) -/
theorem synthPolicy_rows_stochastic (alpha : ℚ) (nA : Nat) (preds : List Nat)
    (h0 : 0 ≤ alpha) (h1 : alpha ≤ 1) (hA : 0 < nA) :
    (synthPolicy alpha nA preds).length = preds.length ∧
    ∀ i, i < preds.length →
      ((synthPolicy alpha nA preds).getD i []).length = nA ∧
      (∀ a, a < nA → ((synthPolicy alpha nA preds).getD i []).getD a 0 =
        if a = preds.getD i 0 then alpha + (1 - alpha) / (nA : ℚ)
        else (1 - alpha) / (nA : ℚ)) ∧
      (preds.getD i 0 < nA → ((synthPolicy alpha nA preds).getD i []).sum = 1) ∧
      (∀ a, a < nA → 0 ≤ ((synthPolicy alpha nA preds).getD i []).getD a 0) ∧
      (alpha < 1 → ∀ a, a < nA → 0 < ((synthPolicy alpha nA preds).getD i []).getD a 0) := by
  have hAQ : (0 : ℚ) < (nA : ℚ) := by exact_mod_cast hA
  have hu0 : (0 : ℚ) ≤ (1 - alpha) / (nA : ℚ) :=
    div_nonneg (by linarith) (le_of_lt hAQ)
  refine ⟨synthPolicy_length alpha nA preds, fun i hi => ?_⟩
  refine ⟨?_, fun a ha => synthPolicy_entry alpha nA preds i a hi ha, ?_, ?_, ?_⟩
  · rw [synthPolicy_row alpha nA preds i hi]; simp
  · intro hp
    rw [synthPolicy_row alpha nA preds i hi, range_map_sum]
    have hsplit : ∀ a ∈ Finset.range nA,
        (if a = preds.getD i 0 then alpha + (1 - alpha) / (nA : ℚ)
         else (1 - alpha) / (nA : ℚ)) =
        (1 - alpha) / (nA : ℚ) + (if a = preds.getD i 0 then alpha else 0) := by
      intro a _
      by_cases h : a = preds.getD i 0
      · rw [if_pos h, if_pos h]; ring
      · rw [if_neg h, if_neg h]; ring
    rw [Finset.sum_congr rfl hsplit, Finset.sum_add_distrib, Finset.sum_const,
      Finset.card_range, Finset.sum_ite_eq' (Finset.range nA) (preds.getD i 0) (fun _ => alpha),
      if_pos (Finset.mem_range.mpr hp), nsmul_eq_mul]
    field_simp
  · intro a ha
    rw [synthPolicy_entry alpha nA preds i a hi ha]
    by_cases h : a = preds.getD i 0
    · rw [if_pos h]; linarith
    · rw [if_neg h]; exact hu0
  · intro hlt a ha
    have hupos : (0 : ℚ) < (1 - alpha) / (nA : ℚ) := div_pos (by linarith) hAQ
    rw [synthPolicy_entry alpha nA preds i a hi ha]
    by_cases h : a = preds.getD i 0
    · rw [if_pos h]; linarith
    · rw [if_neg h]; exact hupos

/-- Claim C4: the recorded propensity `pscore[i]` is exactly the probability the
behaviour policy matrix assigns to the sampled action:
`pscore[i] = pi_b[i, action[i]]`. -/
theorem pscore_matches_behavior_policy (st : MCState) (sp : SplitInfo) (preds : List Nat)
    (seed : Nat) (fb : FeedbackRec) (hsp : st.split = some sp)
    (hfb : obtain_batch_bandit_feedback st preds seed = .ok fb) :
    ∀ i, i < sp.n_rounds_ev →
      fb.pscore.getD i 0 =
        ((synthPolicy st.alpha_b (natActions st.y) preds).getD i []).getD
          (fb.action.getD i 0) 0 := by
  intro i hi
  rw [obtain_batch_bandit_feedback, hsp] at hfb
  simp only [Except.ok.injEq] at hfb
  subst hfb
  simp only
  rw [range_map_getD _ _ _ _ hi]

/-- Claim C9: feedback sampling is deterministic given the seed — identical seed,
identical upstream state and identical classifier predictions (hence an
identical behaviour policy matrix) produce identical action, reward and
pscore sequences. -/
theorem sampling_deterministic (st1 st2 : MCState) (preds1 preds2 : List Nat)
    (s1 s2 : Nat) (hst : st1 = st2) (hpr : preds1 = preds2) (hs : s1 = s2) :
    obtain_batch_bandit_feedback st1 preds1 s1 = obtain_batch_bandit_feedback st2 preds2 s2 := by
  subst hst; subst hpr; subst hs; rfl

/-- Claim C8 (amended): invoked before any train/evaluation split exists
(`split = none`), feedback sampling fails with the precondition error (the
Python code raises on the missing `X_tr` attribute before mutating
anything), and ground-truth evaluation on a 3-dimensional action
distribution fails with the precondition error on the missing
`n_rounds_ev` attribute; a non-3-D action distribution is instead rejected
by the shape validation error, whose check precedes any split-attribute
access.  Both embedded operations are read-only functions of the state, so
prior state is untouched. -/
theorem ops_fail_before_split (st : MCState) (hsp : st.split = none)
    (preds : List Nat) (seed : Nat) (a : NpArray) :
    obtain_batch_bandit_feedback st preds seed = .error "AttributeError: X_tr" ∧
    (a.shape.length = 3 →
      calc_ground_truth_policy_value st a = .error "AttributeError: n_rounds_ev") ∧
    (a.shape.length ≠ 3 →
      calc_ground_truth_policy_value st a = .error "action_dist must be a 3-D np.ndarray") := by
  refine ⟨?_, ?_, ?_⟩
  · rw [obtain_batch_bandit_feedback, hsp]
  · intro h3
    rw [calc_ground_truth_policy_value, if_neg (by rw [h3]; simp), hsp]
  · intro h3
    rw [calc_ground_truth_policy_value, if_pos h3]

/-! ## Dense-rank lemmas -/

theorem rank_lt_card (S : Finset Int) (v : Int) (hv : v ∈ S) :
    (S.filter (fun u => u < v)).card < S.card := by
  apply Finset.card_lt_card
  rw [Finset.ssubset_iff_of_subset (Finset.filter_subset _ _)]
  exact ⟨v, hv, by simp⟩

theorem rank_strict_mono (S : Finset Int) (u v : Int) (hu : u ∈ S) (huv : u < v) :
    (S.filter (fun w => w < u)).card < (S.filter (fun w => w < v)).card := by
  apply Finset.card_lt_card
  have hsub : S.filter (fun w => w < u) ⊆ S.filter (fun w => w < v) := by
    intro w hw
    rw [Finset.mem_filter] at hw ⊢
    exact ⟨hw.1, lt_trans hw.2 huv⟩
  rw [Finset.ssubset_iff_of_subset hsub]
  exact ⟨u, Finset.mem_filter.mpr ⟨hu, huv⟩, by simp⟩

theorem rank_image_eq_range (S : Finset Int) :
    S.image (fun v => (S.filter (fun u => u < v)).card) = Finset.range S.card := by
  apply Finset.eq_of_subset_of_card_le
  · intro x hx
    simp only [Finset.mem_image] at hx
    obtain ⟨v, hv, rfl⟩ := hx
    exact Finset.mem_range.mpr (rank_lt_card S v hv)
  · rw [Finset.card_range, Finset.card_image_of_injOn]
    intro u hu v hv h
    rcases lt_trichotomy u v with hlt | heq | hgt
    · exact absurd h (Nat.ne_of_lt (rank_strict_mono S u v hu hlt))
    · exact heq
    · exact absurd h.symm (Nat.ne_of_lt (rank_strict_mono S v u hv hgt))

/-- Claim C5: the normalized label vector takes values forming exactly
`{0, …, k-1}` where `k` is the number of distinct original labels, and the
remapping is monotone in the natural order of the original labels (equal
originals get equal ranks). -/
theorem denseRank_normalizes (y : List Int) :
    (denseRank y).toFinset = Finset.range y.toFinset.card ∧
    ∀ i j, i < y.length → j < y.length →
      ((y.getD i 0 < y.getD j 0 → (denseRank y).getD i 0 < (denseRank y).getD j 0) ∧
       (y.getD i 0 = y.getD j 0 → (denseRank y).getD i 0 = (denseRank y).getD j 0)) := by
  constructor
  · have himg : (denseRank y).toFinset =
        y.toFinset.image (fun v => (y.toFinset.filter (fun u => u < v)).card) := by
      ext x
      simp [denseRank]
    rw [himg, rank_image_eq_range]
  · intro i j hi hj
    rw [denseRank, getD_map_of_lt _ _ i 0 _ hi, getD_map_of_lt _ _ j 0 _ hj]
    constructor
    · intro hlt
      exact rank_strict_mono y.toFinset _ _
        (List.mem_toFinset.mpr (getD_mem_of_lt y i 0 hi)) hlt
    · intro heq
      rw [heq]

/-! ## Computation lemmas for the ground-truth evaluator -/

theorem obtain_action_dist_float_one (st : MCState) (sp : SplitInfo)
    (hsp : st.split = some sp) (preds : List Nat) :
    obtain_action_dist_by_eval_policy st preds (PyNum.float 1) =
      .ok (expand_dims2 (synthPolicy 1 (natActions st.y) preds)) := by
  have hP : (PyNum.float 1).isFloat = true ∧ 0 ≤ (PyNum.float 1).val ∧
      (PyNum.float 1).val ≤ 1 := ⟨rfl, by norm_num [PyNum.val], by norm_num [PyNum.val]⟩
  rw [obtain_action_dist_by_eval_policy, if_neg (not_not_intro hP), hsp]
  rfl

theorem calc_ground_truth_ok (st : MCState) (sp : SplitInfo) (hsp : st.split = some sp)
    (a : NpArray) (nA : Nat) (hshape : a.shape = [sp.n_rounds_ev, nA, 1]) :
    calc_ground_truth_policy_value st a =
      .ok ((∑ i ∈ Finset.range sp.n_rounds_ev,
        a.data.getD (i * nA + sp.y_ev.getD i 0) 0) / (sp.n_rounds_ev : ℚ)) := by
  have h3 : ¬(a.shape.length ≠ 3) := by rw [hshape]; simp
  have hh : ¬(a.shape.headD 0 ≠ sp.n_rounds_ev) := by rw [hshape]; simp
  rw [calc_ground_truth_policy_value, if_neg h3, hsp]
  dsimp only
  rw [if_neg hh]
  have hd1 : a.shape.getD 1 0 = nA := by rw [hshape]; rfl
  have hd2 : a.shape.getD 2 0 = 1 := by rw [hshape]; rfl
  simp only [hd1, hd2]
  congr 1
  have hsel : ∀ i : Nat,
      (List.range 1).map (fun k => a.data.getD ((i * nA + sp.y_ev.getD i 0) * 1 + k) 0) =
        [a.data.getD (i * nA + sp.y_ev.getD i 0) 0] := by
    intro i
    have h1 : List.range 1 = [0] := rfl
    rw [h1]
    simp
  rw [List.map_map, List.map_map, range_map_sum, range_map_sum]
  have hnum : ∀ i ∈ Finset.range sp.n_rounds_ev,
      (List.sum ∘ fun i =>
        (List.range 1).map (fun k => a.data.getD ((i * nA + sp.y_ev.getD i 0) * 1 + k) 0)) i =
      a.data.getD (i * nA + sp.y_ev.getD i 0) 0 := by
    intro i _
    simp only [Function.comp, hsel, List.sum_cons, List.sum_nil, add_zero]
  have hden : ∀ i ∈ Finset.range sp.n_rounds_ev,
      (List.length ∘ fun i =>
        (List.range 1).map (fun k => a.data.getD ((i * nA + sp.y_ev.getD i 0) * 1 + k) 0)) i =
      1 := by
    intro i _
    simp [Function.comp]
  rw [Finset.sum_congr rfl hnum, Finset.sum_congr rfl hden, Finset.sum_const,
    Finset.card_range, smul_eq_mul, mul_one]

/-- Claim C7 (amended): the ground-truth evaluator rejects an action distribution
that is not a 3-dimensional array, and rejects a 3-dimensional one whose
axis-0 size differs from the evaluation partition size, each with a
validation error before any averaging; but it does not validate the action
axis or the trailing axis.  On an input of shape
`(n_rounds_ev, nA, 1)` it returns the mean over evaluation rows of the
probability assigned to each row's true label. -/
theorem calc_ground_truth_validates (st : MCState) (sp : SplitInfo)
    (hsp : st.split = some sp) (a : NpArray) :
    (a.shape.length ≠ 3 →
      calc_ground_truth_policy_value st a = .error "action_dist must be a 3-D np.ndarray") ∧
    (a.shape.length = 3 → a.shape.headD 0 ≠ sp.n_rounds_ev →
      calc_ground_truth_policy_value st a =
        .error "the size of axis 0 of action_dist must be the same as the number of samples in the evaluation set") ∧
    (∀ nA, a.shape = [sp.n_rounds_ev, nA, 1] →
      calc_ground_truth_policy_value st a =
        .ok ((∑ i ∈ Finset.range sp.n_rounds_ev,
          a.data.getD (i * nA + sp.y_ev.getD i 0) 0) / (sp.n_rounds_ev : ℚ))) := by
  refine ⟨?_, ?_, fun nA hshape => calc_ground_truth_ok st sp hsp a nA hshape⟩
  · intro h
    rw [calc_ground_truth_policy_value, if_pos h]
  · intro h3 hh
    rw [calc_ground_truth_policy_value, if_neg (by rw [h3]; simp), hsp]
    dsimp only
    rw [if_pos hh]

/-- Claim C6: the ground-truth value computed from the action distribution
synthesized with `alpha_e = 1` equals the classifier's plain accuracy on
the evaluation partition. -/
theorem ground_truth_alpha_one_eq_accuracy (st : MCState) (sp : SplitInfo)
    (preds : List Nat) (hsp : st.split = some sp)
    (hn : 0 < sp.n_rounds_ev)
    (hlen : preds.length = sp.n_rounds_ev)
    (hylen : sp.y_ev.length = sp.n_rounds_ev)
    (hy : ∀ i, i < sp.n_rounds_ev → sp.y_ev.getD i 0 < natActions st.y) :
    Except.bind (obtain_action_dist_by_eval_policy st preds (PyNum.float 1))
      (fun a => calc_ground_truth_policy_value st a) = .ok (accuracySpec preds sp.y_ev) := by
  rw [obtain_action_dist_float_one st sp hsp preds]
  dsimp only [Except.bind]
  have hne : preds ≠ [] := by
    intro h
    rw [h] at hlen
    simp at hlen
    omega
  have hshape : (expand_dims2 (synthPolicy 1 (natActions st.y) preds)).shape =
      [sp.n_rounds_ev, natActions st.y, 1] := by
    rw [expand_dims2]
    simp only [synthPolicy_length, hlen,
      synthPolicy_headD_length 1 (natActions st.y) preds hne]
  rw [calc_ground_truth_ok st sp hsp _ (natActions st.y) hshape]
  congr 1
  have hterm : ∀ i ∈ Finset.range sp.n_rounds_ev,
      (expand_dims2 (synthPolicy 1 (natActions st.y) preds)).data.getD
        (i * natActions st.y + sp.y_ev.getD i 0) 0 =
      if sp.y_ev.getD i 0 = preds.getD i 0 then (1 : ℚ) else 0 := by
    intro i hi
    rw [Finset.mem_range] at hi
    have hiL : i < (synthPolicy 1 (natActions st.y) preds).length := by
      rw [synthPolicy_length, hlen]; exact hi
    rw [show (expand_dims2 (synthPolicy 1 (natActions st.y) preds)).data =
          (synthPolicy 1 (natActions st.y) preds).flatten from rfl,
      flatten_getD_uniform _ _ (synthPolicy_row_length 1 (natActions st.y) preds) i _
        hiL (hy i hi),
      synthPolicy_entry 1 (natActions st.y) preds i _ (by rw [hlen]; exact hi) (hy i hi)]
    by_cases h : sp.y_ev.getD i 0 = preds.getD i 0
    · rw [if_pos h, if_pos h]; norm_num
    · rw [if_neg h, if_neg h]; norm_num
  rw [Finset.sum_congr rfl hterm, accuracySpec, hylen]
  congr 1
  have hflip : ∀ i ∈ Finset.range sp.n_rounds_ev,
      (if sp.y_ev.getD i 0 = preds.getD i 0 then (1 : ℚ) else 0) =
      (if preds.getD i 0 = sp.y_ev.getD i 0 then (1 : ℚ) else 0) := by
    intro i _
    by_cases h : sp.y_ev.getD i 0 = preds.getD i 0
    · rw [if_pos h, if_pos h.symm]
    · rw [if_neg h, if_neg (fun hc => h hc.symm)]
  rw [Finset.sum_congr rfl hflip, Finset.sum_boole]

section ConcreteEvaluation

attribute [local semireducible] Rat.add Rat.mul Rat.inv Rat.sub

/-- Claim C1 (code evidence): on the valid label vector `[-1, 0]` the constructor
succeeds, the normalized labels are `[0, 1]`, but the reward matrix is
`[[0, 1], [1, 0]]` — row 0's single 1 sits at column 1, not at row 0's
normalized label 0, because the code indexes `y_full` with the *original*
labels (here `-1`, wrapping around numpy-style).  On the equally valid
label vector `[0, 2]` construction crashes with an `IndexError` instead of
producing a one-hot matrix at all. -/
theorem y_full_misplaced_on_original_labels :
    (postInit [-1, 0] (PyNum.float (1/2))).toOption.map (fun st => (st.y, st.y_full)) =
      some ([0, 1], [[0, 1], [1, 0]]) ∧
    errOf (postInit [0, 2] (PyNum.float (1/2))) =
      some "IndexError: index out of bounds for axis 1" :=
  ⟨by decide, by decide⟩

/-- Claim C2 (code evidence): running the full pipeline on the label vector
`[-1, -1, 0]` with the evaluation partition `{row 0}` (true normalized label
`y_ev = [0]`), predictions `[0]` and a seed drawing action 0: the sampled
action equals the true normalized label, yet the revealed reward is 0 —
because the reward is read from the misplaced `y_full` one-hot matrix. -/
theorem reward_not_one_at_normalized_label :
    ((postInit [-1, -1, 0] (PyNum.float (1/2))).bind (fun st =>
      (obtain_batch_bandit_feedback (split_train_eval st [0]) [0] 1).map (fun fb =>
        ((split_train_eval st [0]).split.map SplitInfo.y_ev, fb.action, fb.reward)))).toOption =
      some (some [0], [0], [0]) := by decide

/-- Claim C7 (counterexample): the ground-truth evaluator accepts an action
distribution of shape `(1, 2, 2)` — the trailing axis is 2, not 1, so the
shape is *not* `(n_rounds_ev, n_actions, 1)` — and averages over it instead
of rejecting it (`n_rounds_ev = 1` and `n_actions = 2` for `stEx`). -/
theorem calc_ground_truth_accepts_malformed_trailing_axis :
    natActions stEx.y = 2 ∧
    (match stEx.split with | some sp => sp.n_rounds_ev | none => 0) = 1 ∧
    (calc_ground_truth_policy_value stEx ⟨[1, 2, 2], [1/2, 1/2, 0, 0]⟩).toOption =
      some (1/2) :=
  ⟨by decide, by decide, by decide⟩

/-- Claim C10: the mixing-coefficient validators require the Python `float` type:
`alpha_b = 0` (an `int`) is rejected at construction although `0 ∈ [0,1)`,
and `alpha_e = 1` (an `int`) is rejected by the evaluation-policy
synthesizer although `1 ∈ [0,1]`. -/
theorem alpha_validators_require_float :
    errOf (postInit [0, 1] (PyNum.int 0)) =
      some "alpha_b must be a float in the [0,1) interval" ∧
    0 ≤ (PyNum.int 0).val ∧ (PyNum.int 0).val < 1 ∧
    errOf (obtain_action_dist_by_eval_policy stEx [0] (PyNum.int 1)) =
      some "alpha_e must be a float in the [0,1] interval" ∧
    0 ≤ (PyNum.int 1).val ∧ (PyNum.int 1).val ≤ 1 :=
  ⟨by decide, by decide, by decide, by decide, by decide, by decide⟩

/-- Witness for C3 at `alpha = 1/2`, `nA = 2`, `preds = [0]`. -/
theorem synthPolicy_rows_stochastic_witness :
    (0 : ℚ) ≤ 1/2 ∧ (1/2 : ℚ) ≤ 1 ∧ (0 : Nat) < 2 ∧
    ((synthPolicy (1/2) 2 [0]).getD 0 []).sum = 1 ∧
    (0 : ℚ) < ((synthPolicy (1/2) 2 [0]).getD 0 []).getD 1 0 :=
  ⟨by decide, by decide, by decide,
    ((synthPolicy_rows_stochastic (1/2) 2 [0] (by decide) (by decide) (by decide)).2 0
      (by decide)).2.2.1 (by decide),
    ((synthPolicy_rows_stochastic (1/2) 2 [0] (by decide) (by decide) (by decide)).2 0
      (by decide)).2.2.2.2 (by decide) 1 (by decide)⟩

/-- Witness for C4 at `stEx`, predictions `[0]`, seed 1. -/
theorem pscore_matches_behavior_policy_witness :
    stEx.split = some { y_ev := [0], y_full_ev := [[1, 0]], n_rounds_ev := 1 } ∧
    obtain_batch_bandit_feedback stEx [0] 1 = .ok fbEx ∧
    fbEx.pscore.getD 0 0 =
      ((synthPolicy stEx.alpha_b (natActions stEx.y) [0]).getD 0 []).getD
        (fbEx.action.getD 0 0) 0 :=
  ⟨rfl, by rfl,
    pscore_matches_behavior_policy stEx { y_ev := [0], y_full_ev := [[1, 0]], n_rounds_ev := 1 }
      [0] 1 fbEx rfl (by rfl) 0 (by decide)⟩

/-- Witness for C5 at the label vector `[3, 1, 3]`. -/
theorem denseRank_normalizes_witness :
    (denseRank [3, 1, 3]).toFinset = Finset.range (([3, 1, 3] : List Int).toFinset.card) ∧
    (denseRank [3, 1, 3]).getD 1 0 < (denseRank [3, 1, 3]).getD 0 0 :=
  ⟨(denseRank_normalizes [3, 1, 3]).1,
   ((denseRank_normalizes [3, 1, 3]).2 1 0 (by decide) (by decide)).1 (by decide)⟩

/-- Witness for C6 at `stEx` with predictions `[0]` (a perfect classifier
on the one-row evaluation partition). -/
theorem ground_truth_alpha_one_eq_accuracy_witness :
    Except.bind (obtain_action_dist_by_eval_policy stEx [0] (PyNum.float 1))
      (fun a => calc_ground_truth_policy_value stEx a) = .ok (accuracySpec [0] [0]) :=
  ground_truth_alpha_one_eq_accuracy stEx { y_ev := [0], y_full_ev := [[1, 0]], n_rounds_ev := 1 }
    [0] rfl (by decide) (by decide) (by decide) (by decide)

/-- Witness for C7 at `stEx`: a 2-D array is rejected; a well-shaped
`(1, 2, 1)` array is averaged. -/
theorem calc_ground_truth_validates_witness :
    calc_ground_truth_policy_value stEx { shape := [30, 4], data := [] } =
      .error "action_dist must be a 3-D np.ndarray" ∧
    calc_ground_truth_policy_value stEx { shape := [1, 2, 1], data := [1, 0] } =
      .ok ((∑ i ∈ Finset.range 1,
        ([(1 : ℚ), 0]).getD (i * 2 + ([0] : List Nat).getD i 0) 0) / ((1 : Nat) : ℚ)) :=
  ⟨(calc_ground_truth_validates stEx { y_ev := [0], y_full_ev := [[1, 0]], n_rounds_ev := 1 }
      rfl ⟨[30, 4], []⟩).1 (by decide),
   (calc_ground_truth_validates stEx { y_ev := [0], y_full_ev := [[1, 0]], n_rounds_ev := 1 }
      rfl ⟨[1, 2, 1], [1, 0]⟩).2.2 2 rfl⟩

/-- Claim C8 (counterexample): invoked before any split with a malformed
(2-dimensional) action distribution, the ground-truth evaluator fails with
the shape validation error, not the precondition error: the `ndim` check at
the top of `calc_ground_truth_policy_value` precedes every access to the
split attributes, so "fails with a precondition error" does not hold for
every invocation before a split. -/
theorem ground_truth_shape_error_preempts_precondition :
    errOf (calc_ground_truth_policy_value stNoSplit ⟨[30, 4], []⟩) =
      some "action_dist must be a 3-D np.ndarray" ∧
    "action_dist must be a 3-D np.ndarray" ≠ "AttributeError: n_rounds_ev" :=
  ⟨by decide, by decide⟩

/-- Witness for C8 at `stNoSplit`, with a well-formed 3-D action
distribution. -/
theorem ops_fail_before_split_witness :
    obtain_batch_bandit_feedback stNoSplit [0] 0 = .error "AttributeError: X_tr" ∧
    calc_ground_truth_policy_value stNoSplit ⟨[1, 2, 1], [1, 0]⟩ =
      .error "AttributeError: n_rounds_ev" :=
  ⟨(ops_fail_before_split stNoSplit rfl [0] 0 ⟨[1, 2, 1], [1, 0]⟩).1,
   (ops_fail_before_split stNoSplit rfl [0] 0 ⟨[1, 2, 1], [1, 0]⟩).2.1 (by decide)⟩

/-- Witness for C9: two identical calls at `stEx`, seed 7. -/
theorem sampling_deterministic_witness :
    obtain_batch_bandit_feedback stEx [0] 7 = obtain_batch_bandit_feedback stEx [0] 7 :=
  sampling_deterministic stEx stEx [0] [0] 7 7 rfl rfl rfl

end ConcreteEvaluation
